import Mathlib

/-!
# Verification of the data-cleaning pipeline of `Lab1+2v1.ipynb`
(sagemaker-immersion-day)

The notebook loads `dataset/diabetes.csv` into a pandas dataframe with the
nine numeric columns
`Pregnancies, Glucose, BloodPressure, SkinThickness, Insulin, BMI,
DiabetesPedigreeFunction, Age, Outcome` (in that order) and then

1. imputes the zero sentinels of five columns by the class-conditional
   `np.median`, slicing the frame into the `Outcome == 1` part and the
   `Outcome == 0` part and concatenating them back (`pd.concat([df1, df2])`);
2. marks `Pregnancies` and `Outcome` as `category` and applies
   `pd.get_dummies`;
3. shuffles (`sample(frac=1, random_state=1729)`) and slices with
   `np.split(..., [int(0.7*n), int(0.9*n)])` into train/validation/test;
4. exports labelled CSVs (`Outcome_1` first, both outcome dummies dropped,
   `index=False, header=False`).

We embed the frame as a list of records over the fixed nine-column schema,
with cell values in `ℚ`.  The seeded shuffle of step 3 is a permutation of
the row positions determined by the seed and the row count; we embed it as
an explicit position list and quantify over it, the determinism of the seed
appearing as the shuffle being a function of that list.
-/

/-- The nine columns of `dataset/diabetes.csv`, in CSV order. -/
inductive Col where
  | pregnancies
  | glucose
  | bloodPressure
  | skinThickness
  | insulin
  | bmi
  | dpf
  | age
  | outcome
deriving DecidableEq, Repr

/-- One row of the diabetes dataframe; all columns are numeric. -/
structure Row where
  pregnancies : ℚ
  glucose : ℚ
  bloodPressure : ℚ
  skinThickness : ℚ
  insulin : ℚ
  bmi : ℚ
  dpf : ℚ
  age : ℚ
  outcome : ℚ
deriving DecidableEq, Repr

def Row.getCol (r : Row) : Col → ℚ
  | .pregnancies => r.pregnancies
  | .glucose => r.glucose
  | .bloodPressure => r.bloodPressure
  | .skinThickness => r.skinThickness
  | .insulin => r.insulin
  | .bmi => r.bmi
  | .dpf => r.dpf
  | .age => r.age
  | .outcome => r.outcome

def Row.setCol (r : Row) : Col → ℚ → Row
  | .pregnancies, v => { r with pregnancies := v }
  | .glucose, v => { r with glucose := v }
  | .bloodPressure, v => { r with bloodPressure := v }
  | .skinThickness, v => { r with skinThickness := v }
  | .insulin, v => { r with insulin := v }
  | .bmi, v => { r with bmi := v }
  | .dpf, v => { r with dpf := v }
  | .age, v => { r with age := v }
  | .outcome, v => { r with outcome := v }

/-- A dataframe is its list of rows, in order. -/
abbrev Frame := List Row

/-- Insert into a ≤-sorted list, keeping it sorted (ascending). -/
def insertSorted (x : ℚ) : List ℚ → List ℚ
  | [] => [x]
  | y :: ys => if x ≤ y then x :: y :: ys else y :: insertSorted x ys

/-- Ascending sort of the cell values (the sort inside `np.median`). -/
def sortQ (xs : List ℚ) : List ℚ := xs.foldr insertSorted []

/-- `np.median`: sort ascending, take the middle element (odd length) or the
mean of the two middle elements (even length).  On an empty list numpy
produces NaN (with a `RuntimeWarning`), not an exception; NaN has no `ℚ`
representative, so the empty case returns an arbitrary value (`0`) here and
`npMedianO` below tracks that this value is never stored in a frame. -/
def npMedian (xs : List ℚ) : ℚ :=
  let s := sortQ xs
  let n := xs.length
  if n % 2 = 1 then (s.get? (n / 2)).getD 0
  else (((s.get? (n / 2 - 1)).getD 0) + ((s.get? (n / 2)).getD 0)) / 2

/-- `columnsToImpute = ['BloodPressure', 'BMI', 'Glucose', 'Insulin',
'SkinThickness']`. -/
def columnsToImpute : List Col :=
  [.bloodPressure, .bmi, .glucose, .insulin, .skinThickness]

/-- `df.replace({column: 0}, v)`: in column `c`, replace each `0` by `v`;
all other cells are untouched. -/
def replaceZeroCol (c : Col) (v : ℚ) (df : Frame) : Frame :=
  df.map fun r => if r.getCol c = 0 then r.setCol c v else r

/-- One iteration of the imputation loop on a class slice:
`df = df.replace({column: 0}, np.median(df[column]))`. -/
def imputeCol (df : Frame) (c : Col) : Frame :=
  replaceZeroCol c (npMedian (df.map (·.getCol c))) df

/-- The `for column in columnsToImpute` loop run on one class slice. -/
def imputeClass (df : Frame) : Frame :=
  columnsToImpute.foldl imputeCol df

/-- The whole imputation cell:
`df1 = data.loc[data['Outcome'] == 1]; df2 = data.loc[data['Outcome'] == 0]`,
the loop on each, then `data = pd.concat([df1, df2])`. -/
def imputeData (df : Frame) : Frame :=
  imputeClass (df.filter (·.outcome = 1)) ++ imputeClass (df.filter (·.outcome = 0))

/-- `np.median` with the empty slice made explicit: `none` is numpy's NaN
result on a zero-length input. -/
def npMedianO (xs : List ℚ) : Option ℚ :=
  if xs.isEmpty then none else some (npMedian xs)

/-- `imputeCol` tracking NaN: when the median is NaN (empty class slice) the
`replace` call would write NaN into the frame if any cell of the column were
zero; a NaN cell has no `ℚ` representative, so that case is a `none`.
(The slice being empty, it never happens: `imputeColO_eq`.) -/
def imputeColO (df : Frame) (c : Col) : Option Frame :=
  match npMedianO (df.map (·.getCol c)) with
  | some m => some (replaceZeroCol c m df)
  | none => if df.isEmpty then some df else none

/-- The imputation loop on one class slice, with NaN tracked. -/
def imputeClassO (df : Frame) : Option Frame :=
  columnsToImpute.foldlM imputeColO df

/-- The whole imputation cell with NaN tracked. -/
def imputeDataO (df : Frame) : Option Frame := do
  let a ← imputeClassO (df.filter (·.outcome = 1))
  let b ← imputeClassO (df.filter (·.outcome = 0))
  pure (a ++ b)

/-! ## One-hot encoding
(`data = data.astype({'Pregnancies':'category','Outcome':'category'});
model_data = pd.get_dummies(data)`)

`pd.get_dummies` replaces each categorical column by one indicator column per
distinct value (categories ascending), placing the non-encoded columns first
in their original order and then, for each encoded column in frame order, its
indicator columns. -/

/-- Columns of the encoded frame `model_data`: either an untouched numeric
column or the indicator `c_v` of value `v` of an encoded column `c`. -/
inductive EncCol where
  | plain (c : Col)
  | dummy (c : Col) (v : ℚ)
deriving DecidableEq, Repr

/-- The columns turned `category` by the `astype` call, in frame order. -/
def catCols : List Col := [.pregnancies, .outcome]

/-- The remaining columns, in frame order. -/
def plainCols : List Col :=
  [.glucose, .bloodPressure, .skinThickness, .insulin, .bmi, .dpf, .age]

/-- The distinct values of column `c` in the frame, ascending — the
categories of `c`, hence the order of its indicator columns. -/
def dummyVals (df : Frame) (c : Col) : List ℚ :=
  sortQ ((df.map (·.getCol c)).dedup)

/-- The column list of `model_data = pd.get_dummies(data)`. -/
def encSchema (df : Frame) : List EncCol :=
  plainCols.map EncCol.plain ++
    catCols.flatMap fun c => (dummyVals df c).map (EncCol.dummy c)

/-- The cell of row `r` in encoded column `ec`. -/
def encCell (r : Row) : EncCol → ℚ
  | .plain c => r.getCol c
  | .dummy c v => if r.getCol c = v then 1 else 0

/-- Row `r` of the encoded frame, as the list of its cells in schema order. -/
def encodeRow (schema : List EncCol) (r : Row) : List ℚ :=
  schema.map (encCell r)

/-- `model_data` as a list of cell rows. -/
def modelData (df : Frame) : List (List ℚ) :=
  df.map (encodeRow (encSchema df))

/-! ## Shuffle and three-way split
(`train_data, validation_data, test_data =
np.split(model_data.sample(frac=1, random_state=1729),
[int(0.7 * len(model_data)), int(0.9 * len(model_data))])`)

`sample(frac=1, random_state=1729)` reorders the rows by a permutation of
the positions `0, …, n-1` computed by the seeded generator from the seed
and `n` alone; we pass that position list explicitly (`perm`).

The cut indices `int(0.7 * n)` and `int(0.9 * n)` are IEEE-754 double
computations and do NOT always equal `⌊7n/10⌋` and `⌊9n/10⌋`: the double
nearest 0.7 is `3152519739159347 / 2^52 < 7/10`, and at `n = 90` (also
170, 180, 330, …) the rounded product falls below the integer, giving
`int(0.7*90) = 62 ≠ 63 = ⌊7·90/10⌋`.  They are embedded exactly: the
double product of the constant by an (exactly converted) integer `n` is
the true rational product rounded to 53 significant bits, to nearest,
ties to even, then truncated toward zero.  This matches Python for every
`n < 2^53` (larger `n` no dataframe can reach: `float(n)` itself would
round). -/

/-- Count of halvings until the value fits in 53 bits, with explicit fuel
(128 halvings cover every product arising here). -/
def downShift : ℕ → ℕ → ℕ
  | 0, _ => 0
  | f + 1, n => if n < 2 ^ 53 then 0 else downShift f (n / 2) + 1

/-- The exponent shift `s` such that `n / 2^s` has at most 53 bits. -/
def shift53 (n : ℕ) : ℕ := downShift 128 n

/-- Round `N / 2^s` to an integer mantissa, to nearest, ties to even:
`q = N / 2^s` rounded up when the remainder exceeds half of `2^s`, or
equals half of it and `q` is odd. -/
def roundMantissa (N s : ℕ) : ℕ :=
  if 2 ^ s < 2 * (N % 2 ^ s) ∨ (2 * (N % 2 ^ s) = 2 ^ s ∧ (N / 2 ^ s) % 2 = 1)
  then N / 2 ^ s + 1 else N / 2 ^ s

/-- `int((m / 2^p) * n)` in IEEE-754 double arithmetic: the exact product
`m * n / 2^p` is rounded to 53 significant bits (nearest, ties to even),
then truncated toward zero. -/
def pyIntTimesFloat (m p n : ℕ) : ℕ :=
  roundMantissa (m * n) (shift53 (m * n)) * 2 ^ shift53 (m * n) / 2 ^ p

/-- `int(0.7 * n)`: the double nearest 0.7 is `3152519739159347 / 2^52`. -/
def int07 (n : ℕ) : ℕ := pyIntTimesFloat 3152519739159347 52 n

/-- `int(0.9 * n)`: the double nearest 0.9 is `8106479329266893 / 2^53`. -/
def int09 (n : ℕ) : ℕ := pyIntTimesFloat 8106479329266893 53 n

/-- The seeded shuffle: the rows at positions `perm`. -/
def sampleFrac1 (perm : List ℕ) (xs : List α) : List α :=
  perm.filterMap xs.get?

/-- `np.split(xs, [i, j])`: the slices `xs[0:i]`, `xs[i:j]`, `xs[j:]`. -/
def npSplit2 (xs : List α) (i j : ℕ) : List α × List α × List α :=
  (xs.take i, (xs.drop i).take (j - i), xs.drop j)

/-- The split cell: shuffle, then slice at `int(0.7*n)` and `int(0.9*n)`. -/
def trainValTest (perm : List ℕ) (xs : List α) :
    List α × List α × List α :=
  npSplit2 (sampleFrac1 perm xs) (int07 xs.length) (int09 xs.length)

/-- The data-cleaning pipeline end to end: impute, one-hot encode, shuffle
and split.  `perm` is the position permutation drawn from the generator
seeded with `random_state=1729`. -/
def cleanPipeline (perm : List ℕ) (df : Frame) :
    List (List ℚ) × List (List ℚ) × List (List ℚ) :=
  trainValTest perm (modelData (imputeData df))

/-- The pipeline with the NaN-tracking imputation. -/
def cleanPipelineO (perm : List ℕ) (df : Frame) :
    Option (List (List ℚ) × List (List ℚ) × List (List ℚ)) :=
  (imputeDataO df).map fun d => trainValTest perm (modelData d)

/-! ## CSV exports
(`pd.concat([X['Outcome_1'], X.drop(['Outcome_0', 'Outcome_1'], axis=1)],
axis=1).to_csv(..., index=False, header=False)` for
`X ∈ {train_data, validation_data, merged_data}` and `test_data`, plus
`test_data.drop(['Outcome_0', 'Outcome_1'], axis=1)` for
`test-no-outcomes.csv`; `merged_data = train_data.append(validation_data)`).

With `index=False, header=False` the file is exactly the cell rows, so a CSV
is embedded as `List (List ℚ)`.  Selecting a missing column or dropping a
missing label raises `KeyError` in pandas, hence the `Option`s. -/

/-- The two outcome indicator labels dropped by the export cell. -/
def outcomeDummies : List EncCol := [.dummy .outcome 0, .dummy .outcome 1]

/-- `X[c]` on one cell row: the cell under the first column labelled `c`
(`KeyError`, i.e. `none`, if no column is). -/
def selectCell (schema : List EncCol) (c : EncCol) (row : List ℚ) : Option ℚ :=
  (((schema.zip row).filter (fun p => p.1 = c)).head?).map (·.2)

/-- `X.drop(['Outcome_0', 'Outcome_1'], axis=1)` on one cell row. -/
def dropOutcomeCells (schema : List EncCol) (row : List ℚ) : List ℚ :=
  (((schema.zip row).filter (fun p => p.1 ∉ outcomeDummies))).map (·.2)

/-- `pd.concat([X['Outcome_1'], X.drop(['Outcome_0','Outcome_1'], axis=1)],
axis=1).to_csv(..., index=False, header=False)`: `drop` raises unless both
labels are present; the select raises unless `Outcome_1` is. -/
def labelledCsv (schema : List EncCol) (rows : List (List ℚ)) :
    Option (List (List ℚ)) :=
  if (EncCol.dummy .outcome 0 ∈ schema) ∧ (EncCol.dummy .outcome 1 ∈ schema) then
    rows.mapM fun row =>
      (selectCell schema (.dummy .outcome 1) row).map
        fun ℓ => ℓ :: dropOutcomeCells schema row
  else none

/-- `test_data.drop(['Outcome_0','Outcome_1'], axis=1).to_csv(...)`. -/
def noOutcomeCsv (schema : List EncCol) (rows : List (List ℚ)) :
    Option (List (List ℚ)) :=
  if (EncCol.dummy .outcome 0 ∈ schema) ∧ (EncCol.dummy .outcome 1 ∈ schema) then
    some (rows.map (dropOutcomeCells schema))
  else none

/-- The whole export cell: the four labelled files and the unlabelled one,
on the pipeline's outputs. -/
def exportCsvs (perm : List ℕ) (df : Frame) :
    Option (List (List ℚ) × List (List ℚ) × List (List ℚ) × List (List ℚ)) :=
  (labelledCsv (encSchema (imputeData df)) (cleanPipeline perm df).1).bind
    fun trainCsv =>
      (labelledCsv (encSchema (imputeData df)) (cleanPipeline perm df).2.1).bind
        fun validationCsv =>
          (noOutcomeCsv (encSchema (imputeData df))
              (cleanPipeline perm df).2.2).bind
            fun testNoOutcomes =>
              (labelledCsv (encSchema (imputeData df))
                  ((cleanPipeline perm df).1 ++ (cleanPipeline perm df).2.1)).map
                fun mergedCsv =>
                  (trainCsv, validationCsv, testNoOutcomes, mergedCsv)

/-! ## The Step Functions workflow (`unnamed/part_000`)

`workflow_definition = steps.Chain([training_step, model_step,
transform_step, endpoint_config_step, endpoint_step])`, where the five
steps are the `TrainingStep`, `ModelStep`, `TransformStep`,
`EndpointConfigStep` and `EndpointStep` constructed in the notebook. -/

/-- The kinds of orchestration step the workflow notebook constructs. -/
inductive WStep where
  | trainingStep
  | modelStep
  | transformStep
  | endpointConfigStep
  | endpointStep
deriving DecidableEq, Repr

/-- `steps.Chain([...])`: the ordered list of chained steps. -/
def workflow_definition : List WStep :=
  [.trainingStep, .modelStep, .transformStep, .endpointConfigStep, .endpointStep]

/-! ## The imputation loop computes the class-conditional medians of the
original columns

The loop mutates `df1`/`df2` column by column, so the median for a later
column is taken on the already partially imputed slice; replacing zeros of
one column never changes another column's cells, so those medians equal the
medians of the original slice. -/

/-- The median of column `c` among the rows of `df` whose `Outcome` is
`cls` — the "per-class median" of the claim. -/
def classMedian (df : Frame) (cls : ℚ) (c : Col) : ℚ :=
  npMedian ((df.filter (·.outcome = cls)).map (·.getCol c))

/-- The claim's per-entry description of imputation on one row: each zero
entry of the five columns becomes `m` of that column, every other entry is
unchanged. -/
def imputeRowSpec (m : Col → ℚ) (r : Row) : Row :=
  { r with
    bloodPressure := if r.bloodPressure = 0 then m .bloodPressure else r.bloodPressure
    bmi := if r.bmi = 0 then m .bmi else r.bmi
    glucose := if r.glucose = 0 then m .glucose else r.glucose
    insulin := if r.insulin = 0 then m .insulin else r.insulin
    skinThickness := if r.skinThickness = 0 then m .skinThickness else r.skinThickness }

/-! ## Concrete data for witnesses

Small frames in the dataset's shape (constructor argument order:
pregnancies, glucose, bloodPressure, skinThickness, insulin, bmi, dpf,
age, outcome). -/

/-- Class-1 row with a zero `Glucose` sentinel. -/
def wr1 : Row := ⟨1, 0, 70, 20, 80, 30, 1/2, 25, 1⟩

/-- Class-1 row with no zero sentinel. -/
def wr2 : Row := ⟨2, 120, 80, 25, 100, 35, 3/10, 30, 1⟩

/-- Class-0 row with a zero `BloodPressure` sentinel. -/
def wr3 : Row := ⟨0, 90, 0, 15, 60, 28, 1/4, 40, 0⟩

/-- A three-row frame with interleaved outcome classes. -/
def wdf : Frame := [wr1, wr3, wr2]

/-- A two-row frame whose class-0 row comes first. -/
def wdf8 : Frame := [wr3, wr2]

/-! ## Theorems -/

theorem getCol_setCol_ne (r : Row) {c c' : Col} (v : ℚ) (h : c ≠ c') :
    (r.setCol c v).getCol c' = r.getCol c' := by
  cases c <;> cases c' <;> first
    | exact absurd rfl h
    | rfl

theorem length_replaceZeroCol (c : Col) (v : ℚ) (df : Frame) :
    (replaceZeroCol c v df).length = df.length := by
  simp [replaceZeroCol]

/-- Replacing zeros of column `c` does not change the cell values of any
other column `c'`. -/
theorem map_getCol_replaceZeroCol {c c' : Col} (h : c ≠ c') (v : ℚ) (df : Frame) :
    (replaceZeroCol c v df).map (·.getCol c') = df.map (·.getCol c') := by
  simp only [replaceZeroCol, List.map_map]
  apply List.map_congr_left
  intro r _
  by_cases hz : r.getCol c = 0 <;> simp [hz, getCol_setCol_ne r v h]

theorem imputeClass_eq_map (df : Frame) :
    imputeClass df =
      df.map (imputeRowSpec fun c => npMedian (df.map (·.getCol c))) := by
  simp only [imputeClass, columnsToImpute, List.foldl_cons, List.foldl_nil]
  simp only [imputeCol]
  rw [map_getCol_replaceZeroCol (by decide : Col.bloodPressure ≠ Col.bmi)]
  rw [map_getCol_replaceZeroCol (by decide : Col.bmi ≠ Col.glucose),
      map_getCol_replaceZeroCol (by decide : Col.bloodPressure ≠ Col.glucose)]
  rw [map_getCol_replaceZeroCol (by decide : Col.glucose ≠ Col.insulin),
      map_getCol_replaceZeroCol (by decide : Col.bmi ≠ Col.insulin),
      map_getCol_replaceZeroCol (by decide : Col.bloodPressure ≠ Col.insulin)]
  rw [map_getCol_replaceZeroCol (by decide : Col.insulin ≠ Col.skinThickness),
      map_getCol_replaceZeroCol (by decide : Col.glucose ≠ Col.skinThickness),
      map_getCol_replaceZeroCol (by decide : Col.bmi ≠ Col.skinThickness),
      map_getCol_replaceZeroCol (by decide : Col.bloodPressure ≠ Col.skinThickness)]
  simp only [replaceZeroCol, List.map_map]
  refine List.map_congr_left fun r _ => ?_
  obtain ⟨p, g, bp, st, ins, bmi, dpf, age, o⟩ := r
  simp only [Function.comp_apply]
  by_cases h1 : bp = 0 <;> by_cases h2 : bmi = 0 <;> by_cases h3 : g = 0 <;>
    by_cases h4 : ins = 0 <;> by_cases h5 : st = 0 <;>
    simp [h1, h2, h3, h4, h5, Row.getCol, Row.setCol, imputeRowSpec]

/-- **C1.** On a frame whose `Outcome` column is 0/1-valued, the imputation
cell replaces every zero entry of the five columns `BloodPressure, BMI,
Glucose, Insulin, SkinThickness` by the median of that column among the
rows of the same `Outcome` class, keeps every non-zero entry of those
columns, and leaves all other columns untouched: the output is the class-1
rows followed by the class-0 rows, each mapped entry-wise by
`imputeRowSpec` with its class medians (taken on the input frame). -/
theorem imputation_per_class_median (df : Frame)
    (hbin : ∀ r ∈ df, r.outcome = 0 ∨ r.outcome = 1) :
    imputeData df =
      (df.filter (·.outcome = 1)).map (imputeRowSpec (classMedian df 1)) ++
        (df.filter (·.outcome = 0)).map (imputeRowSpec (classMedian df 0)) := by
  rw [imputeData, imputeClass_eq_map, imputeClass_eq_map]
  rfl

theorem imputation_per_class_median_witness :
    (∀ r ∈ wdf, r.outcome = 0 ∨ r.outcome = 1) ∧
      imputeData wdf =
        (wdf.filter (·.outcome = 1)).map (imputeRowSpec (classMedian wdf 1)) ++
          (wdf.filter (·.outcome = 0)).map (imputeRowSpec (classMedian wdf 0)) :=
  ⟨by decide, imputation_per_class_median wdf (by decide)⟩

theorem outcome_imputeRowSpec (m : Col → ℚ) (r : Row) :
    (imputeRowSpec m r).outcome = r.outcome := rfl

theorem mem_imputeClass_outcome (df : Frame) (cls : ℚ) :
    ∀ r ∈ imputeClass (df.filter (·.outcome = cls)), r.outcome = cls := by
  intro r hr
  rw [imputeClass_eq_map] at hr
  obtain ⟨r', hr', rfl⟩ := List.mem_map.mp hr
  rw [outcome_imputeRowSpec]
  exact of_decide_eq_true (List.mem_filter.mp hr').2

theorem length_imputeClass (df : Frame) : (imputeClass df).length = df.length := by
  rw [imputeClass_eq_map]; simp

theorem length_filter_binary (df : Frame)
    (hbin : ∀ r ∈ df, r.outcome = 0 ∨ r.outcome = 1) :
    (df.filter (·.outcome = 1)).length + (df.filter (·.outcome = 0)).length
      = df.length := by
  induction df with
  | nil => simp
  | cons r t ih =>
    have hr := hbin r (List.mem_cons_self r t)
    have ih' := ih fun x hx => hbin x (List.mem_cons_of_mem r hx)
    rcases hr with h | h
    · rw [List.filter_cons, List.filter_cons]
      simp only [h, List.length_cons]
      norm_num
      omega
    · rw [List.filter_cons, List.filter_cons]
      simp only [h, List.length_cons]
      norm_num
      omega

/-- **C8.** In the output of the imputation cell every row with `Outcome`
1 precedes every row with `Outcome` 0, whatever the input order: the output
is the concatenation of the imputed class-1 slice and the imputed class-0
slice. -/
theorem imputeData_ones_before_zeros (df : Frame) (i j : ℕ)
    (hi : i < (imputeData df).length) (hj : j < (imputeData df).length)
    (h1 : ((imputeData df).get ⟨i, hi⟩).outcome = 1)
    (h0 : ((imputeData df).get ⟨j, hj⟩).outcome = 0) :
    i < j := by
  have hA := mem_imputeClass_outcome df 1
  have hB := mem_imputeClass_outcome df 0
  rw [List.get_eq_getElem] at h1 h0
  have hiA : i < (imputeClass (df.filter (·.outcome = 1))).length := by
    by_contra hcon
    push_neg at hcon
    have hij : i < (imputeClass (df.filter (·.outcome = 1))).length
        + (imputeClass (df.filter (·.outcome = 0))).length := by
      simpa [imputeData] using hi
    have hgot : (imputeData df)[i] =
        (imputeClass (df.filter (·.outcome = 0)))[i -
          (imputeClass (df.filter (·.outcome = 1))).length] := by
      simp only [imputeData]
      rw [List.getElem_append_right hcon]
    have hmem := List.getElem_mem
      (show i - (imputeClass (df.filter (·.outcome = 1))).length <
        (imputeClass (df.filter (·.outcome = 0))).length by omega)
    have := hB _ hmem
    rw [← hgot, h1] at this
    norm_num at this
  have hjB : (imputeClass (df.filter (·.outcome = 1))).length ≤ j := by
    by_contra hcon
    push_neg at hcon
    have hgot : (imputeData df)[j] =
        (imputeClass (df.filter (·.outcome = 1)))[j] := by
      simp only [imputeData]
      rw [List.getElem_append_left hcon]
    have hmem := List.getElem_mem hcon
    have := hA _ hmem
    rw [← hgot, h0] at this
    norm_num at this
  omega

theorem imputeData_ones_before_zeros_witness :
    0 < (imputeData wdf8).length ∧ 1 < (imputeData wdf8).length ∧
      ((imputeData wdf8).get ⟨0, by decide⟩).outcome = 1 ∧
      ((imputeData wdf8).get ⟨1, by decide⟩).outcome = 0 ∧
      (0 : ℕ) < 1 :=
  ⟨by decide, by decide, by decide, by decide,
    imputeData_ones_before_zeros wdf8 0 1 (by decide) (by decide)
      (by decide) (by decide)⟩

/-- **C9.** The imputation cell keeps only the `Outcome == 1` and
`Outcome == 0` slices: every output row has a 0/1 outcome, the output's
length is the number of class-1 rows plus the number of class-0 rows (rows
of any other outcome are silently dropped), and when the input's `Outcome`
is 0/1-valued the row count is preserved exactly. -/
theorem imputeData_binary_rows (df : Frame) :
    (∀ r ∈ imputeData df, r.outcome = 0 ∨ r.outcome = 1) ∧
      (imputeData df).length =
        (df.filter (·.outcome = 1)).length + (df.filter (·.outcome = 0)).length ∧
      ((∀ r ∈ df, r.outcome = 0 ∨ r.outcome = 1) →
        (imputeData df).length = df.length) := by
  refine ⟨?_, ?_, ?_⟩
  · intro r hr
    rw [imputeData, List.mem_append] at hr
    rcases hr with h | h
    · exact Or.inr (mem_imputeClass_outcome df 1 r h)
    · exact Or.inl (mem_imputeClass_outcome df 0 r h)
  · simp [imputeData, length_imputeClass]
  · intro hbin
    simp [imputeData, length_imputeClass, length_filter_binary df hbin]

theorem imputeData_binary_rows_witness :
    (∀ r ∈ imputeData wdf, r.outcome = 0 ∨ r.outcome = 1) ∧
      (imputeData wdf).length =
        (wdf.filter (·.outcome = 1)).length + (wdf.filter (·.outcome = 0)).length ∧
      ((∀ r ∈ wdf, r.outcome = 0 ∨ r.outcome = 1) →
        (imputeData wdf).length = wdf.length) :=
  imputeData_binary_rows wdf

theorem filterMap_get?_range (xs : List α) :
    (List.range xs.length).filterMap xs.get? = xs := by
  induction xs with
  | nil => rfl
  | cons x t ih =>
    rw [List.length_cons, List.range_succ_eq_map, List.filterMap_cons]
    simp only [List.get?_cons_zero]
    rw [List.filterMap_map]
    have hc : (x :: t).get? ∘ Nat.succ = t.get? := funext fun i => rfl
    rw [hc, ih]

/-- The seeded shuffle of a frame along a permutation of its positions is a
permutation of its rows. -/
theorem sampleFrac1_perm (perm : List ℕ) (xs : List α)
    (h : perm.Perm (List.range xs.length)) :
    (sampleFrac1 perm xs).Perm xs := by
  have hp := h.filterMap xs.get?
  rwa [filterMap_get?_range] at hp

theorem downShift_pos_le (f : ℕ) :
    ∀ N : ℕ, downShift f N ≠ 0 → 2 ^ (52 + downShift f N) ≤ N := by
  induction f with
  | zero => intro N h; exact absurd rfl h
  | succ f ih =>
    intro N h
    by_cases hN : N < 2 ^ 53
    · rw [downShift, if_pos hN] at h
      exact absurd rfl h
    · rw [downShift, if_neg hN] at h ⊢
      rcases eq_or_ne (downShift f (N / 2)) 0 with hz | hz
      · rw [hz]
        have h53 := Nat.le_of_not_lt hN
        norm_num at h53 ⊢
        omega
      · have h2 := ih (N / 2) hz
        have hp : (2 : ℕ) ^ (52 + (downShift f (N / 2) + 1))
            = 2 * 2 ^ (52 + downShift f (N / 2)) := by ring
        omega

theorem two_pow_shift53_le (N : ℕ) : 2 ^ shift53 N ≤ 1 + N / 2 ^ 52 := by
  unfold shift53
  rcases eq_or_ne (downShift 128 N) 0 with h | h
  · simp [h]
  · have h2 := downShift_pos_le 128 N h
    rw [pow_add] at h2
    have h4 : 2 ^ downShift 128 N ≤ N / 2 ^ 52 :=
      (Nat.le_div_iff_mul_le (by positivity)).mpr (by omega)
    omega

theorem roundMantissa_le (N s : ℕ) : roundMantissa N s * 2 ^ s ≤ N + 2 ^ s := by
  have h1 := Nat.div_mul_le_self N (2 ^ s)
  unfold roundMantissa
  split_ifs with h
  · have h2 : (N / 2 ^ s + 1) * 2 ^ s = N / 2 ^ s * 2 ^ s + 2 ^ s := by ring
    omega
  · omega

theorem le_roundMantissa (N s : ℕ) : N + 1 ≤ roundMantissa N s * 2 ^ s + 2 ^ s := by
  have h1 := Nat.div_add_mod N (2 ^ s)
  rw [Nat.mul_comm] at h1
  have h2 : N % 2 ^ s < 2 ^ s := Nat.mod_lt _ (by positivity)
  unfold roundMantissa
  split_ifs with h
  · have h3 : (N / 2 ^ s + 1) * 2 ^ s = N / 2 ^ s * 2 ^ s + 2 ^ s := by ring
    omega
  · omega

theorem pyIntTimesFloat_le (m p n : ℕ) :
    pyIntTimesFloat m p n ≤ (m * n + 2 ^ shift53 (m * n)) / 2 ^ p :=
  Nat.div_le_div_right (roundMantissa_le _ _)

theorem le_pyIntTimesFloat (m p n : ℕ) :
    (m * n + 1 - 2 ^ shift53 (m * n)) / 2 ^ p ≤ pyIntTimesFloat m p n := by
  apply Nat.div_le_div_right
  have := le_roundMantissa (m * n) (shift53 (m * n))
  omega

theorem coeff_mul_div_pow52_le (a n : ℕ) (h : a ≤ 2 ^ 53) :
    a * n / 2 ^ 52 ≤ 2 * n := by
  have h1 : a * n ≤ 2 ^ 52 * (2 * n) := by
    have h2 : (2 : ℕ) ^ 52 * (2 * n) = 2 ^ 53 * n := by ring
    rw [h2]
    exact Nat.mul_le_mul_right n h
  calc a * n / 2 ^ 52 ≤ 2 ^ 52 * (2 * n) / 2 ^ 52 := Nat.div_le_div_right h1
    _ = 2 * n := Nat.mul_div_cancel_left _ (by positivity)

theorem int07_le_int09 (n : ℕ) : int07 n ≤ int09 n := by
  rcases Nat.eq_zero_or_pos n with rfl | hn
  · decide
  · have h7 := pyIntTimesFloat_le 3152519739159347 52 n
    have h9 := le_pyIntTimesFloat 8106479329266893 53 n
    have hs7 := two_pow_shift53_le (3152519739159347 * n)
    have hs9 := two_pow_shift53_le (8106479329266893 * n)
    have hd7 := coeff_mul_div_pow52_le 3152519739159347 n (by norm_num)
    have hd9 := coeff_mul_div_pow52_le 8106479329266893 n (by norm_num)
    have hconv :
        2 * (3152519739159347 * n + 2 ^ shift53 (3152519739159347 * n)) / 2 ^ 53
          = (3152519739159347 * n + 2 ^ shift53 (3152519739159347 * n)) / 2 ^ 52 := by
      rw [show (2 : ℕ) ^ 53 = 2 * 2 ^ 52 by norm_num]
      exact Nat.mul_div_mul_left _ _ (by norm_num)
    have hnum : 2 * (3152519739159347 * n + 2 ^ shift53 (3152519739159347 * n))
        ≤ 8106479329266893 * n + 1 - 2 ^ shift53 (8106479329266893 * n) := by
      omega
    calc int07 n
        ≤ (3152519739159347 * n + 2 ^ shift53 (3152519739159347 * n)) / 2 ^ 52 := h7
      _ = 2 * (3152519739159347 * n + 2 ^ shift53 (3152519739159347 * n)) / 2 ^ 53 :=
          hconv.symm
      _ ≤ (8106479329266893 * n + 1 - 2 ^ shift53 (8106479329266893 * n)) / 2 ^ 53 :=
          Nat.div_le_div_right hnum
      _ ≤ int09 n := h9

theorem int09_le_self (n : ℕ) : int09 n ≤ n := by
  have h9 := pyIntTimesFloat_le 8106479329266893 53 n
  have hs9 := two_pow_shift53_le (8106479329266893 * n)
  have hd9 := coeff_mul_div_pow52_le 8106479329266893 n (by norm_num)
  have hnum : 8106479329266893 * n + 2 ^ shift53 (8106479329266893 * n)
      ≤ (2 ^ 53 - 1) + n * 2 ^ 53 := by
    have he : (2 : ℕ) ^ 53 = 9007199254740992 := by norm_num
    rw [he]
    omega
  have hfin : ((2 ^ 53 - 1) + n * 2 ^ 53) / 2 ^ 53 = n := by
    rw [Nat.add_mul_div_right _ _ (show (0 : ℕ) < 2 ^ 53 by positivity),
      Nat.div_eq_of_lt (by norm_num)]
    omega
  calc int09 n
      ≤ (8106479329266893 * n + 2 ^ shift53 (8106479329266893 * n)) / 2 ^ 53 := h9
    _ ≤ ((2 ^ 53 - 1) + n * 2 ^ 53) / 2 ^ 53 := Nat.div_le_div_right hnum
    _ = n := hfin

theorem take_take_drop_recompose (l : List α) (i j : ℕ) (hij : i ≤ j) :
    l.take i ++ (l.drop i).take (j - i) ++ l.drop j = l := by
  have h2 : l.drop j = (l.drop i).drop (j - i) := by
    rw [List.drop_drop]
    congr 1
    omega
  rw [List.append_assoc, h2, List.take_append_drop, List.take_append_drop]

/-- **C2.** The three outputs of the train/validation/test split are a
partition of the rows fed to it (the rows of `model_data`): together they
are the same multiset, so every row lands in exactly one slice, none is
duplicated and none is lost. -/
theorem split_partitions_rows (perm : List ℕ) (df : Frame)
    (h : perm.Perm (List.range (modelData (imputeData df)).length)) :
    ((cleanPipeline perm df).1 ++ (cleanPipeline perm df).2.1 ++
        (cleanPipeline perm df).2.2).Perm
      (modelData (imputeData df)) := by
  have hs := sampleFrac1_perm perm (modelData (imputeData df)) h
  have hij : int07 (modelData (imputeData df)).length ≤
      int09 (modelData (imputeData df)).length :=
    int07_le_int09 _
  simp only [cleanPipeline, trainValTest, npSplit2]
  rw [take_take_drop_recompose _ _ _ hij]
  exact hs

theorem split_partitions_rows_witness :
    ([2, 0, 1] : List ℕ).Perm (List.range (modelData (imputeData wdf)).length) ∧
      ((cleanPipeline [2, 0, 1] wdf).1 ++ (cleanPipeline [2, 0, 1] wdf).2.1 ++
          (cleanPipeline [2, 0, 1] wdf).2.2).Perm
        (modelData (imputeData wdf)) :=
  ⟨by decide, split_partitions_rows [2, 0, 1] wdf (by decide)⟩

/-- **C3 counterexample.** The claim that the training set is the first
`⌊0.7n⌋` shuffled rows for every `n` fails at `n = 90`: the identity
permutation of the positions is a valid shuffle, and the training slice
has `int(0.7*90) = 62` rows (the double product `0.7*90` rounds to
`62.999999999999996`), not `⌊7·90/10⌋ = 63`. -/
theorem split_floor_counterexample :
    (List.range 90).Perm (List.range (List.range (90 : ℕ)).length) ∧
      (trainValTest (List.range 90) (List.range (90 : ℕ))).1.length = 62 ∧
      7 * (List.range (90 : ℕ)).length / 10 = 63 := by
  refine ⟨?_, by decide, by decide⟩
  have h : (List.range (90 : ℕ)).length = 90 := by decide
  rw [h]

/-- **C3 (amended).** On an input with `n` rows the split first shuffles
the rows and then slices them into three contiguous ranges at the cut
indices `int(0.7*n)` and `int(0.9*n)` computed in double precision: the
first `int07 n` shuffled rows are the training set, the next
`int09 n - int07 n` the validation set and the last `n - int09 n` the
test set, with `int07 n ≤ int09 n ≤ n`.  The cuts agree with `⌊0.7n⌋` and
`⌊0.9n⌋` at most sizes but not all (`n = 90` above). -/
theorem split_float_cut_sizes {α : Type} (perm : List ℕ) (xs : List α)
    (h : perm.Perm (List.range xs.length)) :
    trainValTest perm xs =
      ((sampleFrac1 perm xs).take (int07 xs.length),
        ((sampleFrac1 perm xs).drop (int07 xs.length)).take
          (int09 xs.length - int07 xs.length),
        (sampleFrac1 perm xs).drop (int09 xs.length)) ∧
      (trainValTest perm xs).1.length = int07 xs.length ∧
      (trainValTest perm xs).2.1.length
        = int09 xs.length - int07 xs.length ∧
      (trainValTest perm xs).2.2.length = xs.length - int09 xs.length := by
  have hlen : (sampleFrac1 perm xs).length = xs.length :=
    (sampleFrac1_perm perm xs h).length_eq
  have h79 := int07_le_int09 xs.length
  have h9n := int09_le_self xs.length
  have heq : trainValTest perm xs =
      ((sampleFrac1 perm xs).take (int07 xs.length),
        ((sampleFrac1 perm xs).drop (int07 xs.length)).take
          (int09 xs.length - int07 xs.length),
        (sampleFrac1 perm xs).drop (int09 xs.length)) := rfl
  refine ⟨heq, ?_, ?_, ?_⟩ <;> rw [heq]
  · simp only [List.length_take, hlen]
    omega
  · simp only [List.length_take, List.length_drop, hlen]
    omega
  · simp [hlen]

theorem split_float_cut_sizes_witness :
    ([2, 0, 1] : List ℕ).Perm
        (List.range (modelData (imputeData wdf)).length) ∧
      (trainValTest [2, 0, 1] (modelData (imputeData wdf)) =
        ((sampleFrac1 [2, 0, 1] (modelData (imputeData wdf))).take
            (int07 (modelData (imputeData wdf)).length),
          ((sampleFrac1 [2, 0, 1] (modelData (imputeData wdf))).drop
              (int07 (modelData (imputeData wdf)).length)).take
            (int09 (modelData (imputeData wdf)).length
              - int07 (modelData (imputeData wdf)).length),
          (sampleFrac1 [2, 0, 1] (modelData (imputeData wdf))).drop
            (int09 (modelData (imputeData wdf)).length)) ∧
        (trainValTest [2, 0, 1] (modelData (imputeData wdf))).1.length
          = int07 (modelData (imputeData wdf)).length ∧
        (trainValTest [2, 0, 1] (modelData (imputeData wdf))).2.1.length
          = int09 (modelData (imputeData wdf)).length
            - int07 (modelData (imputeData wdf)).length ∧
        (trainValTest [2, 0, 1] (modelData (imputeData wdf))).2.2.length
          = (modelData (imputeData wdf)).length
            - int09 (modelData (imputeData wdf)).length) :=
  ⟨by decide, split_float_cut_sizes [2, 0, 1] (modelData (imputeData wdf)) (by decide)⟩

/-- **C5.** The data-cleaning pipeline is deterministic: the seeded
generator is a function of the seed, so two runs on the same input frame
with the same seed (hence the same position permutation) produce identical
train, validation and test outputs — and identical exported CSVs. -/
theorem pipeline_deterministic (perm₁ perm₂ : List ℕ) (df₁ df₂ : Frame)
    (hseed : perm₁ = perm₂) (hin : df₁ = df₂) :
    cleanPipeline perm₁ df₁ = cleanPipeline perm₂ df₂ ∧
      exportCsvs perm₁ df₁ = exportCsvs perm₂ df₂ := by
  subst hseed
  subst hin
  exact ⟨rfl, rfl⟩

theorem pipeline_deterministic_witness :
    ([2, 0, 1] : List ℕ) = [2, 0, 1] ∧ wdf = wdf ∧
      (cleanPipeline [2, 0, 1] wdf = cleanPipeline [2, 0, 1] wdf ∧
        exportCsvs [2, 0, 1] wdf = exportCsvs [2, 0, 1] wdf) :=
  ⟨rfl, rfl, pipeline_deterministic [2, 0, 1] [2, 0, 1] wdf wdf rfl rfl⟩

/-- **C6.** The workflow definition chains exactly five orchestration
steps, in the order training, model creation, transform, endpoint
configuration, endpoint creation. -/
theorem workflow_five_steps :
    workflow_definition =
      [WStep.trainingStep, WStep.modelStep, WStep.transformStep,
        WStep.endpointConfigStep, WStep.endpointStep] ∧
      workflow_definition.length = 5 :=
  ⟨rfl, rfl⟩

theorem imputeColO_eq (df : Frame) (c : Col) :
    imputeColO df c = some (imputeCol df c) := by
  cases df with
  | nil => rfl
  | cons r t => simp [imputeColO, npMedianO, imputeCol]

theorem imputeClassO_eq (df : Frame) : imputeClassO df = some (imputeClass df) := by
  simp [imputeClassO, imputeClass, columnsToImpute, List.foldlM_cons,
    List.foldlM_nil, imputeColO_eq, List.foldl_cons, List.foldl_nil]

/-- **C7.** The cleaning steps never fail: for every input frame in the
dataset's shape the imputation (its per-class median included: the only
value numpy cannot produce a number for, the median of an empty class
slice, is never stored), the encoding and the three-way split all
complete, and the fallible pipeline returns exactly the total one's
output. -/
theorem pipeline_no_failure (perm : List ℕ) (df : Frame) :
    cleanPipelineO perm df = some (cleanPipeline perm df) := by
  simp [cleanPipelineO, cleanPipeline, imputeDataO, imputeClassO_eq, imputeData]

/-- **C4 counterexample.** The claim that the encoding step one-hot encodes
exactly one column (`Pregnancies`) and leaves every other column present is
false on a concrete frame: the `astype` call marks `Outcome` categorical
too, so `pd.get_dummies` removes the `Outcome` column and emits its
indicator columns instead. -/
theorem one_hot_single_column_counterexample :
    EncCol.plain Col.outcome ∉ encSchema wdf ∧
      EncCol.dummy Col.outcome 1 ∈ encSchema wdf ∧
      EncCol.dummy Col.outcome 0 ∈ encSchema wdf := by decide

/-- **C4 (amended).** The encoding step one-hot encodes exactly the two
columns marked categorical, `Pregnancies` and `Outcome`, each expanded
into one indicator column per distinct value (ascending), and leaves the
remaining seven columns present, first and with unchanged values. -/
theorem one_hot_two_columns (df : Frame) (r : Row) :
    encSchema df =
      plainCols.map EncCol.plain ++
        ((dummyVals df .pregnancies).map (EncCol.dummy .pregnancies) ++
          (dummyVals df .outcome).map (EncCol.dummy .outcome)) ∧
      (encodeRow (encSchema df) r).take plainCols.length
        = plainCols.map r.getCol ∧
      (∀ c ∈ plainCols, encCell r (.plain c) = r.getCol c) ∧
      (∀ c v, encCell r (.dummy c v) = if r.getCol c = v then 1 else 0) := by
  have hschema : encSchema df =
      plainCols.map EncCol.plain ++
        ((dummyVals df .pregnancies).map (EncCol.dummy .pregnancies) ++
          (dummyVals df .outcome).map (EncCol.dummy .outcome)) := by
    simp [encSchema, catCols]
  refine ⟨hschema, ?_, fun c _ => rfl, fun c v => rfl⟩
  rw [encodeRow, hschema, List.map_append, List.map_map]
  have hlen : (plainCols.map (encCell r ∘ EncCol.plain)).length
      = plainCols.length := by simp
  rw [List.take_left' hlen]
  exact List.map_congr_left fun c _ => rfl

theorem one_hot_two_columns_witness :
    encSchema wdf =
      plainCols.map EncCol.plain ++
        ((dummyVals wdf .pregnancies).map (EncCol.dummy .pregnancies) ++
          (dummyVals wdf .outcome).map (EncCol.dummy .outcome)) ∧
      (encodeRow (encSchema wdf) wr1).take plainCols.length
        = plainCols.map wr1.getCol ∧
      (∀ c ∈ plainCols, encCell wr1 (.plain c) = wr1.getCol c) ∧
      (∀ c v, encCell wr1 (.dummy c v) = if wr1.getCol c = v then 1 else 0) :=
  one_hot_two_columns wdf wr1

theorem zip_map_encCell (r : Row) (l : List EncCol) :
    l.zip (l.map (encCell r)) = l.map fun c => (c, encCell r c) := by
  induction l with
  | nil => rfl
  | cons c t ih => simp [ih]

theorem filter_fst_pair_eq (r : Row) (c : EncCol) (l : List EncCol) :
    (l.map fun x => (x, encCell r x)).filter (fun p => p.1 = c)
      = (l.filter (fun x => x = c)).map fun x => (x, encCell r x) := by
  induction l with
  | nil => rfl
  | cons a t ih =>
    by_cases ha : a = c <;> simp [List.filter_cons, ha, ih]

theorem filter_fst_pair_notmem (r : Row) (l : List EncCol) :
    (l.map fun x => (x, encCell r x)).filter (fun p => p.1 ∉ outcomeDummies)
      = (l.filter (fun x => x ∉ outcomeDummies)).map fun x => (x, encCell r x) := by
  induction l with
  | nil => rfl
  | cons a t ih =>
    simp only [decide_not] at ih
    by_cases ha : a ∈ outcomeDummies <;>
      simp [List.filter_cons, ha, decide_not, ih]

theorem head?_filter_self (c : EncCol) (l : List EncCol) (h : c ∈ l) :
    (l.filter (fun x => x = c)).head? = some c := by
  induction l with
  | nil => cases h
  | cons a t ih =>
    rcases List.mem_cons.mp h with rfl | hm
    · simp [List.filter_cons]
    · by_cases ha : a = c
      · subst ha
        simp [List.filter_cons]
      · simp [List.filter_cons, ha, ih hm]

theorem selectCell_encodeRow (schema : List EncCol) (c : EncCol) (r : Row)
    (h : c ∈ schema) :
    selectCell schema c (encodeRow schema r) = some (encCell r c) := by
  rw [selectCell, encodeRow, zip_map_encCell, filter_fst_pair_eq,
    List.head?_map, head?_filter_self c schema h]
  rfl

theorem dropOutcomeCells_encodeRow (schema : List EncCol) (r : Row) :
    dropOutcomeCells schema (encodeRow schema r)
      = (schema.filter (fun c => c ∉ outcomeDummies)).map (encCell r) := by
  rw [dropOutcomeCells, encodeRow, zip_map_encCell, filter_fst_pair_notmem,
    List.map_map]
  rfl

theorem labelledCsv_encodeRows (schema : List EncCol) (T : Frame)
    (h0 : EncCol.dummy Col.outcome 0 ∈ schema)
    (h1 : EncCol.dummy Col.outcome 1 ∈ schema) :
    labelledCsv schema (T.map (encodeRow schema))
      = some (T.map fun r =>
          encCell r (.dummy .outcome 1) ::
            (schema.filter (fun c => c ∉ outcomeDummies)).map (encCell r)) := by
  rw [labelledCsv, if_pos ⟨h0, h1⟩]
  induction T with
  | nil => rfl
  | cons r t ih =>
    rw [List.map_cons, List.map_cons, List.mapM_cons,
      selectCell_encodeRow schema _ r h1, dropOutcomeCells_encodeRow, ih]
    rfl

theorem noOutcomeCsv_encodeRows (schema : List EncCol) (S : Frame)
    (h0 : EncCol.dummy Col.outcome 0 ∈ schema)
    (h1 : EncCol.dummy Col.outcome 1 ∈ schema) :
    noOutcomeCsv schema (S.map (encodeRow schema))
      = some (S.map fun r =>
          (schema.filter (fun c => c ∉ outcomeDummies)).map (encCell r)) := by
  rw [noOutcomeCsv, if_pos ⟨h0, h1⟩]
  congr 1
  rw [List.map_map]
  exact List.map_congr_left fun r _ => dropOutcomeCells_encodeRow schema r

theorem sampleFrac1_map {α β : Type} (f : α → β) (perm : List ℕ) (xs : List α) :
    sampleFrac1 perm (xs.map f) = (sampleFrac1 perm xs).map f := by
  induction perm with
  | nil => rfl
  | cons p ps ih =>
    simp only [sampleFrac1] at ih ⊢
    rw [List.filterMap_cons, List.filterMap_cons, List.get?_map]
    cases h : xs.get? p <;> simp [h, ih]

theorem trainValTest_map {α β : Type} (f : α → β) (perm : List ℕ) (xs : List α) :
    trainValTest perm (xs.map f)
      = ((trainValTest perm xs).1.map f, (trainValTest perm xs).2.1.map f,
          (trainValTest perm xs).2.2.map f) := by
  simp [trainValTest, npSplit2, sampleFrac1_map, List.length_map,
    List.map_take, List.map_drop]

/-- **C10.** When both outcome indicator columns exist (the split's input
saw both classes), every labelled export — `train.csv`, `validation.csv`
and `merged.csv` (the train rows followed by the validation rows) — is one
line per data row (no header, no index), whose first cell is the
`Outcome_1` indicator of the row followed by its feature cells with both
outcome indicator columns removed; `test-no-outcomes.csv` is the feature
cells alone, with both outcome indicator columns removed. -/
theorem export_csv_shapes (perm : List ℕ) (df : Frame)
    (h0 : EncCol.dummy Col.outcome 0 ∈ encSchema (imputeData df))
    (h1 : EncCol.dummy Col.outcome 1 ∈ encSchema (imputeData df)) :
    exportCsvs perm df =
      some
        (((trainValTest perm (imputeData df)).1).map (fun r =>
            encCell r (.dummy .outcome 1) ::
              ((encSchema (imputeData df)).filter
                (fun c => c ∉ outcomeDummies)).map (encCell r)),
          ((trainValTest perm (imputeData df)).2.1).map (fun r =>
            encCell r (.dummy .outcome 1) ::
              ((encSchema (imputeData df)).filter
                (fun c => c ∉ outcomeDummies)).map (encCell r)),
          ((trainValTest perm (imputeData df)).2.2).map (fun r =>
            ((encSchema (imputeData df)).filter
              (fun c => c ∉ outcomeDummies)).map (encCell r)),
          ((trainValTest perm (imputeData df)).1 ++
              (trainValTest perm (imputeData df)).2.1).map (fun r =>
            encCell r (.dummy .outcome 1) ::
              ((encSchema (imputeData df)).filter
                (fun c => c ∉ outcomeDummies)).map (encCell r))) := by
  have hsplit : cleanPipeline perm df
      = ((trainValTest perm (imputeData df)).1.map
            (encodeRow (encSchema (imputeData df))),
          (trainValTest perm (imputeData df)).2.1.map
            (encodeRow (encSchema (imputeData df))),
          (trainValTest perm (imputeData df)).2.2.map
            (encodeRow (encSchema (imputeData df)))) := by
    rw [cleanPipeline, modelData]
    exact trainValTest_map _ _ _
  rw [exportCsvs, hsplit]
  simp only
  rw [← List.map_append]
  rw [labelledCsv_encodeRows _ _ h0 h1, labelledCsv_encodeRows _ _ h0 h1,
    noOutcomeCsv_encodeRows _ _ h0 h1, labelledCsv_encodeRows _ _ h0 h1]
  rfl

theorem export_csv_shapes_witness :
    EncCol.dummy Col.outcome 0 ∈ encSchema (imputeData wdf) ∧
      EncCol.dummy Col.outcome 1 ∈ encSchema (imputeData wdf) ∧
      exportCsvs [2, 0, 1] wdf =
        some
          (((trainValTest [2, 0, 1] (imputeData wdf)).1).map (fun r =>
              encCell r (.dummy .outcome 1) ::
                ((encSchema (imputeData wdf)).filter
                  (fun c => c ∉ outcomeDummies)).map (encCell r)),
            ((trainValTest [2, 0, 1] (imputeData wdf)).2.1).map (fun r =>
              encCell r (.dummy .outcome 1) ::
                ((encSchema (imputeData wdf)).filter
                  (fun c => c ∉ outcomeDummies)).map (encCell r)),
            ((trainValTest [2, 0, 1] (imputeData wdf)).2.2).map (fun r =>
              ((encSchema (imputeData wdf)).filter
                (fun c => c ∉ outcomeDummies)).map (encCell r)),
            ((trainValTest [2, 0, 1] (imputeData wdf)).1 ++
                (trainValTest [2, 0, 1] (imputeData wdf)).2.1).map (fun r =>
              encCell r (.dummy .outcome 1) ::
                ((encSchema (imputeData wdf)).filter
                  (fun c => c ∉ outcomeDummies)).map (encCell r))) :=
  ⟨by decide, by decide, export_csv_shapes [2, 0, 1] wdf (by decide) (by decide)⟩
